import Mathlib

/-!
Shallow embedding of the batch dispatch and deferred-retry engine of the
daily-phrases mailer (source files `envio_frases2.py` and `email_service.py`).

Modelling conventions:
* Wall-clock time is a natural number of minutes (`now`); the source compares
  `datetime` values only with `>=` and adds `timedelta(minutes=...)`, so the
  ordered additive structure of `Nat` is faithful.
* Durations recorded by the metrics collector are rationals; the sample values
  used by the spec (1.5, 2.0) are exactly representable.
* The transport call `EmailService.enviar_correo` is modelled by an oracle
  `send : Usuario -> SendR` giving, per recipient, the behaviour the caller
  `procesar_usuario` can observe: a `True` return, a `False` return, or an
  exception carrying a message string.
* The thread pool of `procesar_lote` collects results with `as_completed`,
  whose arrival order is unspecified; the embedding fixes submission order.
  All proved properties are insensitive to that order.
* Database side effects (`registrar_envio`) never raise in the source (the
  method catches every exception and returns a bool), so they are omitted.
* Report-only fields built from floats and string slices (`tasa_exito`,
  `frase` excerpt, `tiempo_total`) are omitted from run results; no claim
  mentions them.
-/

/-- Configuration values drawn from EMAIL_CONFIG (environment with defaults). -/
structure Config where
  max_retries : Nat
  batch_size : Nat
  max_workers : Nat
  retry_delay_minutes : Nat
deriving Repr, DecidableEq

/-- The defaults of EMAIL_CONFIG: retries 3, batch 50, workers 5, delay 30. -/
def defaultConfig : Config := ⟨3, 50, 5, 30⟩

/-- A recipient row as used by the dispatcher: id and delivery address. -/
structure Usuario where
  id : Nat
  email : String
deriving Repr, DecidableEq

/-- The payload (la frase del dia): id and text. -/
structure FraseData where
  id : Nat
  frase : String
deriving Repr, DecidableEq

/-- Observable behaviour of one transport call from `procesar_usuario`:
`enviar_correo` returns True (with the elapsed send duration), returns False,
or raises an exception whose textual form is `msg`. -/
inductive SendR where
  | ok (dur : ℚ)
  | failed
  | raised (msg : String)
deriving Repr, DecidableEq

def SendR.isOk : SendR → Bool
  | .ok _ => true
  | _ => false

def SendR.isRaised : SendR → Bool
  | .raised _ => true
  | _ => false

def SendR.isFailedR : SendR → Bool
  | .failed => true
  | _ => false

/-- One entry of the `fallidos` list: the dict
`\x7b'usuario': u, 'error': msg, 'is_network_error': b\x7d`. -/
structure FailedEntry where
  usuario : Usuario
  error : String
  is_network_error : Bool
deriving Repr, DecidableEq

/-- Substring helper: does `l` start with `sub`? (character lists). -/
def startsWithChars : List Char → List Char → Bool
  | [], _ => true
  | _ :: _, [] => false
  | a :: as, b :: bs => a == b && startsWithChars as bs

/-- Substring helper: does `sub` occur contiguously inside `l`?
Mirrors the Python operator `sub in msg` on strings. -/
def hasSubChars (sub : List Char) : List Char → Bool
  | [] => startsWithChars sub []
  | c :: cs => startsWithChars sub (c :: cs) || hasSubChars sub cs

/-- `containsSub sub msg` mirrors Python `sub in msg`. -/
def containsSub (sub msg : String) : Bool :=
  hasSubChars sub.data msg.data

/-- The fixed list of network-error indicators of
`FraseDiariaManager.is_network_error`. -/
def network_error_indicators : List String :=
  ["Network is unreachable",
   "Connection refused",
   "Connection timed out",
   "Name or service not known",
   "Temporary failure in name resolution",
   "No route to host",
   "Connection reset by peer"]

/-- `FraseDiariaManager.is_network_error`: the message is transient iff it
contains one of the fixed indicators (case-sensitive substring test). -/
def is_network_error (error_msg : String) : Bool :=
  network_error_indicators.any (fun indicator => containsSub indicator error_msg)

/-- The mutable state of MetricsCollector (its `metrics` dict plus lock;
the lock serialises updates, which the sequential embedding reflects).
`tiempo_promedio_envio` is still the raw list of send durations here. -/
structure Metrics where
  total_usuarios : Nat
  exitosos : Nat
  fallidos : Nat
  reintentos_diferidos : Nat
  errores : List String
  tiempo_promedio_envio : List ℚ
  errores_red : Nat
  otros_errores : Nat
deriving Repr, DecidableEq

/-- `MetricsCollector.__init__`: all counters zero, lists empty. -/
def Metrics.init : Metrics := ⟨0, 0, 0, 0, [], [], 0, 0⟩

/-- `MetricsCollector.add_success`. -/
def Metrics.add_success (m : Metrics) (tiempo_envio : ℚ) : Metrics :=
  { m with exitosos := m.exitosos + 1,
           tiempo_promedio_envio := m.tiempo_promedio_envio ++ [tiempo_envio] }

/-- `MetricsCollector.add_failure`. -/
def Metrics.add_failure (m : Metrics) (error : String) (is_net : Bool) : Metrics :=
  { m with fallidos := m.fallidos + 1,
           errores := m.errores ++ [error],
           errores_red := if is_net then m.errores_red + 1 else m.errores_red,
           otros_errores := if is_net then m.otros_errores else m.otros_errores + 1 }

/-- `MetricsCollector.add_deferred_retry`. -/
def Metrics.add_deferred_retry (m : Metrics) : Metrics :=
  { m with reintentos_diferidos := m.reintentos_diferidos + 1 }

/-- `MetricsCollector.set_total_usuarios`. -/
def Metrics.set_total_usuarios (m : Metrics) (total : Nat) : Metrics :=
  { m with total_usuarios := total }

/-- The snapshot returned by `MetricsCollector.finalizar`:
`tiempo_promedio_envio` has been replaced by the mean.  Wall-clock
`tiempo_total` is omitted (not modelled). -/
structure MetricsFinal where
  total_usuarios : Nat
  exitosos : Nat
  fallidos : Nat
  reintentos_diferidos : Nat
  errores : List String
  tiempo_promedio_envio : ℚ
  errores_red : Nat
  otros_errores : Nat
deriving Repr, DecidableEq

/-- `MetricsCollector.finalizar`: the duration list collapses to its
arithmetic mean, or 0 when no success was recorded. -/
def Metrics.finalizar (m : Metrics) : MetricsFinal :=
  ⟨m.total_usuarios, m.exitosos, m.fallidos, m.reintentos_diferidos, m.errores,
   if m.tiempo_promedio_envio.isEmpty then 0
   else m.tiempo_promedio_envio.sum / (m.tiempo_promedio_envio.length : ℚ),
   m.errores_red, m.otros_errores⟩

/-- The JSON record written by `FailedUsersManager.save_failed_users`
(`timestamp` is implied by `retry_after` minus the delay and is omitted). -/
structure StoredRecord where
  frase_data : FraseData
  failed_users : List FailedEntry
  retry_after : Nat
deriving Repr, DecidableEq

/-- State of the failed-users file: absent, unreadable or corrupt, or a
well-formed record. -/
inductive StoreState where
  | absent
  | corrupt
  | record (r : StoredRecord)
deriving Repr, DecidableEq

/-- `FailedUsersManager.save_failed_users`: on a successful write the file
holds the new record with `retry_after = now + retry_delay_minutes`; a failed
write is caught and logged, leaving the previous state. -/
def save_failed_users (cfg : Config) (now : Nat) (writeOk : Bool)
    (failed_users : List FailedEntry) (frase_data : FraseData)
    (s : StoreState) : StoreState :=
  if writeOk then .record ⟨frase_data, failed_users, now + cfg.retry_delay_minutes⟩
  else s

/-- `FailedUsersManager.load_failed_users`: None when the file is absent,
None when reading or parsing raises (caught), None when `now < retry_after`,
and the record itself when due (`now >= retry_after`). -/
def load_failed_users (now : Nat) (s : StoreState) : Option StoredRecord :=
  match s with
  | .absent => none
  | .corrupt => none
  | .record r => if r.retry_after ≤ now then some r else none

/-- `FailedUsersManager.clear_failed_users`: removes the file when present;
any exception is caught, so the operation is total. -/
def clear_failed_users (_s : StoreState) : StoreState := .absent

example : is_network_error "Connection refused" = true := by decide

example : is_network_error "Invalid email address" = false := by decide

/-- Outcome value returned by `procesar_usuario` when it is not None:
either the recipient dict itself (success) or a failure entry. -/
inductive ProcOut where
  | success (u : Usuario)
  | failure (f : FailedEntry)
deriving Repr, DecidableEq

/-- The failure message built by `procesar_usuario`:
`f"Error al enviar a \x7busuario['email']\x7d: \x7bstr(e)\x7d"`. -/
def errMsgFor (u : Usuario) (msg : String) : String :=
  "Error al enviar a " ++ u.email ++ ": " ++ msg

/-- `FraseDiariaManager.procesar_usuario`.  The transport behaviour is the
`SendR` oracle value; on True, success metrics are recorded and the recipient
itself is returned; on an exception, a failure entry is recorded and
returned; on False, nothing is recorded and None is returned. -/
def procesar_usuario (u : Usuario) (r : SendR) (m : Metrics) :
    Option ProcOut × Metrics :=
  match r with
  | .ok dur => (some (.success u), m.add_success dur)
  | .failed => (none, m)
  | .raised msg =>
      let error_msg := errMsgFor u msg
      let is_net := is_network_error msg
      (some (.failure ⟨u, error_msg, is_net⟩), m.add_failure error_msg is_net)

/-- Collection step of the `as_completed` loop in `procesar_lote`: a result
that is a recipient extends `exitosos`, a result that is an error entry
extends `fallidos`, a None result extends neither. -/
def loteStep (send : Usuario → SendR)
    (acc : (List Usuario × List FailedEntry) × Metrics) (u : Usuario) :
    (List Usuario × List FailedEntry) × Metrics :=
  match procesar_usuario u (send u) acc.2 with
  | (some (.success su), m1) => ((acc.1.1 ++ [su], acc.1.2), m1)
  | (some (.failure fe), m1) => ((acc.1.1, acc.1.2 ++ [fe]), m1)
  | (none, m1) => ((acc.1.1, acc.1.2), m1)

/-- `FraseDiariaManager.procesar_lote`: one unit of work is submitted per
recipient of the batch; results are partitioned into `exitosos` and
`fallidos`, and a None result lands in neither list.  The embedding collects
results in submission order (the source uses `as_completed`, whose order is
unspecified); every property proved below is order-insensitive. -/
def procesar_lote (send : Usuario → SendR) (usuarios : List Usuario)
    (m : Metrics) : (List Usuario × List FailedEntry) × Metrics :=
  usuarios.foldl (loteStep send) (([], []), m)

/-- Batch decomposition `usuarios[i:i+batch_size] for i in
range(0, len(usuarios), batch_size)`, written with explicit fuel
(`batch_size = 0` would not terminate; the source would raise on a zero
step, and all call sites use positive configured sizes). -/
def chunksAux (n : Nat) : Nat → List Usuario → List (List Usuario)
  | 0, _ => []
  | _, [] => []
  | fuel + 1, l => l.take n :: chunksAux n fuel (l.drop n)

/-- The list of consecutive batches of size `n` (last one possibly smaller). -/
def chunks (n : Nat) (l : List Usuario) : List (List Usuario) :=
  chunksAux n l.length l

/-- Body of the batch loop: process one batch, extend the accumulated
lists, and on the deferred-retry path count one deferred retry per success
of the batch. -/
def dispatchStep (send : Usuario → SendR) (is_retry : Bool)
    (acc : (List Usuario × List FailedEntry) × Metrics)
    (lote : List Usuario) : (List Usuario × List FailedEntry) × Metrics :=
  match procesar_lote send lote acc.2 with
  | ((exl, fal), m1) =>
    let m2 := if is_retry
              then exl.foldl (fun mm _ => mm.add_deferred_retry) m1
              else m1
    ((acc.1.1 ++ exl, acc.1.2 ++ fal), m2)

/-- The batch loop shared by `procesar_envios` and
`procesar_reintentos_diferidos`: fold the batch step over the batches,
extending the accumulated success and failure lists; batch N+1 is processed
only after batch N is fully collected. -/
def dispatchLotes (cfg : Config) (send : Usuario → SendR) (is_retry : Bool)
    (usuarios : List Usuario) (m : Metrics) :
    (List Usuario × List FailedEntry) × Metrics :=
  (chunks cfg.batch_size usuarios).foldl (dispatchStep send is_retry)
    (([], []), m)

/-- The result dict of a run, keeping the keys the callers read.
`error` is some message exactly when `success` is false; `errores_red` and
`otros_errores` are present only on the fresh path (None on the retry path,
like the source dicts). -/
structure RunResult where
  success : Bool
  is_retry : Bool
  error : Option String
  frase_id : Option Nat
  total_usuarios : Nat
  exitosos : Nat
  fallidos : Nat
  errores_red : Option Nat
  otros_errores : Option Nat
  usuarios_exitosos : List Usuario
  usuarios_fallidos : List FailedEntry
  metricas : Option MetricsFinal
deriving Repr, DecidableEq

/-- A `\x7b'success': False, 'error': e\x7d` dict. -/
def RunResult.fail (e : String) : RunResult :=
  ⟨false, false, some e, none, 0, 0, 0, none, none, [], [], none⟩

/-- The collaborators and ambient conditions of one invocation:
the phrase of the day, the active recipients, the transport oracle, the
current time in minutes, and whether the failed-users file write succeeds. -/
structure Env where
  frase : Option FraseData
  usuarios_activos : List Usuario
  send : Usuario → SendR
  now : Nat
  writeOk : Bool

/-- `FraseDiariaManager.procesar_reintentos_diferidos`: load the stored
record (None when absent, unreadable, or not yet due); keep only its entries
marked as network errors; clear and bail out when none remain; otherwise
dispatch the kept recipients in batches against the stored phrase, then save
the remaining network failures or clear the store. -/
def procesar_reintentos_diferidos (cfg : Config) (env : Env) (s : StoreState)
    (m : Metrics) : RunResult × StoreState × Metrics :=
  match load_failed_users env.now s with
  | none => (RunResult.fail "No hay reintentos pendientes", s, m)
  | some failed_data =>
    let frase_data := failed_data.frase_data
    let failed_users :=
      (failed_data.failed_users.filter (fun item => item.is_network_error)).map
        (fun item => item.usuario)
    if failed_users.isEmpty then
      (RunResult.fail "No hay errores de red para reintentar",
       clear_failed_users s, m)
    else
      let m1 := m.set_total_usuarios failed_users.length
      match dispatchLotes cfg env.send true failed_users m1 with
      | ((usuarios_exitosos, usuarios_fallidos), m2) =>
        let network_failures :=
          usuarios_fallidos.filter (fun item => item.is_network_error)
        let s2 := if network_failures.isEmpty
                  then clear_failed_users s
                  else save_failed_users cfg env.now env.writeOk
                         network_failures frase_data s
        (⟨true, true, none, some frase_data.id, failed_users.length,
          usuarios_exitosos.length, usuarios_fallidos.length, none, none,
          usuarios_exitosos, usuarios_fallidos, some m2.finalizar⟩,
         s2, m2)

/-- `FraseDiariaManager.procesar_envios`: first give the deferred-retry path
a chance; when it reports success, return its result.  Otherwise fetch the
phrase of the day and the active recipients — an empty answer from either
terminates with a failure dict — then dispatch all batches, save the
transient failures (there is no clear branch on this path), finalize metrics
and assemble the result. -/
def procesar_envios (cfg : Config) (env : Env) (s : StoreState) :
    RunResult × StoreState :=
  match procesar_reintentos_diferidos cfg env s Metrics.init with
  | (retry_result, s1, m1) =>
    if retry_result.success then (retry_result, s1)
    else
      match env.frase with
      | none => (RunResult.fail "No hay frase para hoy", s1)
      | some frase_data =>
        if env.usuarios_activos.isEmpty then
          (RunResult.fail "No hay usuarios activos", s1)
        else
          let m2 := m1.set_total_usuarios env.usuarios_activos.length
          match dispatchLotes cfg env.send false env.usuarios_activos m2 with
          | ((usuarios_exitosos, usuarios_fallidos), m3) =>
            let network_failures :=
              usuarios_fallidos.filter (fun item => item.is_network_error)
            let other_failures :=
              usuarios_fallidos.filter (fun item => !item.is_network_error)
            let s2 := if network_failures.isEmpty then s1
                      else save_failed_users cfg env.now env.writeOk
                             network_failures frase_data s1
            (⟨true, false, none, some frase_data.id,
              env.usuarios_activos.length, usuarios_exitosos.length,
              usuarios_fallidos.length, some network_failures.length,
              some other_failures.length, usuarios_exitosos,
              usuarios_fallidos, some m3.finalizar⟩,
             s2)

namespace EnvioFrases

/-- The script entry `main` (namespaced so the source name does not clash
with the Lean entry point): exit 1 when configuration validation fails;
otherwise run `procesar_envios`; on a success dict, exit 0 when all sends
succeeded or at least one did, else 1; on a failure dict, exit 1.  An
uncaught exception also exits 1, which the total embedding has no analogue
of. -/
def main (cfg : Config) (config_valida : Bool) (env : Env) (s : StoreState) :
    Nat :=
  if !config_valida then 1
  else
    let resultados := (procesar_envios cfg env s).1
    if resultados.success then
      if resultados.exitosos = resultados.total_usuarios then 0
      else if 0 < resultados.exitosos then 0
      else 1
    else 1

end EnvioFrases

/-- The successful recipients of a dispatch, characterised directly from the
transport oracle: those whose send returned True. -/
def exitosDe (send : Usuario → SendR) (l : List Usuario) : List Usuario :=
  l.filter (fun u => (send u).isOk)

/-- The failure entries of a dispatch, characterised directly from the
transport oracle: one entry per recipient whose send raised. -/
def fallosDe (send : Usuario → SendR) (l : List Usuario) : List FailedEntry :=
  l.filterMap (fun u =>
    match send u with
    | .raised msg => some ⟨u, errMsgFor u msg, is_network_error msg⟩
    | _ => none)

/-- Metrics effect of processing one recipient. -/
def userMetric (send : Usuario → SendR) (m : Metrics) (u : Usuario) : Metrics :=
  match send u with
  | .ok dur => m.add_success dur
  | .failed => m
  | .raised msg => m.add_failure (errMsgFor u msg) (is_network_error msg)

/-- Metrics effect of processing a list of recipients in order. -/
def aplicarMetrics (send : Usuario → SendR) (l : List Usuario) (m : Metrics) :
    Metrics :=
  l.foldl (userMetric send) m

/-- Metrics effect of the whole batch loop over a batch list `L`, including
the per-batch deferred-retry counting of the retry path. -/
def dispatchMetrics (send : Usuario → SendR) (is_retry : Bool)
    (L : List (List Usuario)) (m : Metrics) : Metrics :=
  L.foldl
    (fun mm lote =>
      let m1 := aplicarMetrics send lote mm
      if is_retry
      then (exitosDe send lote).foldl (fun x _ => x.add_deferred_retry) m1
      else m1)
    m

/-- Folding a sequence of recorded send durations into the collector. -/
def applySucc (ds : List ℚ) (m : Metrics) : Metrics :=
  ds.foldl (fun mm d => mm.add_success d) m

/-- The Python membership test `sub in msg`, as a proposition: `sub`
occurs contiguously inside `msg`. -/
def OccursIn (sub msg : String) : Prop :=
  ∃ p q, msg.data = p ++ (sub.data ++ q)

/-! Concrete recipients, payload and transports for the end-to-end scenario
of the spec and for the counterexamples. -/

def u1 : Usuario := ⟨1, "ana@example.com"⟩

def u2 : Usuario := ⟨2, "bob@example.com"⟩

def u3 : Usuario := ⟨3, "carla@example.com"⟩

def frEj : FraseData := ⟨7, "Break a leg"⟩

/-- The textual form of a network-unreachable socket error. -/
def netMsg : String := "[Errno 101] Network is unreachable"

/-- A transport that raises a network-unreachable error for everyone. -/
def sendRed : Usuario → SendR := fun _ => .raised netMsg

/-- A transport that succeeds for everyone. -/
def sendBien : Usuario → SendR := fun _ => .ok 0

/-- A transport that reports failure by returning False (as
`EmailService.enviar_correo` does after exhausting its attempts, having
caught every exception internally). -/
def sendFalso : Usuario → SendR := fun _ => .failed

/-- The failure entry that `procesar_usuario` builds for recipient `u`
under the network-unreachable transport. -/
def entryRed (u : Usuario) : FailedEntry := ⟨u, errMsgFor u netMsg, true⟩

def envRun1 : Env := ⟨some frEj, [u1, u2, u3], sendRed, 0, true⟩

def envRun2 : Env := ⟨some frEj, [u1, u2, u3], sendRed, 1, true⟩

def envRun3 : Env := ⟨some frEj, [u1, u2, u3], sendBien, 31, true⟩

/-- Fresh run over three recipients, network down, empty store. -/
def run1 : RunResult × StoreState := procesar_envios defaultConfig envRun1 .absent

/-- Second invocation one minute later, network still down. -/
def run2 : RunResult × StoreState := procesar_envios defaultConfig envRun2 run1.2

/-- Third invocation at minute 31, network recovered. -/
def run3 : RunResult × StoreState := procesar_envios defaultConfig envRun3 run2.2

/-- A transport with one success, one raised permanent error, and one
silent False return. -/
def sendMix : Usuario → SendR := fun u =>
  if u.id = 1 then .ok 0
  else if u.id = 2 then .raised "Invalid email address"
  else .failed

/-- Fresh run over one recipient whose transport returns False. -/
def envFalso : Env := ⟨some frEj, [u1], sendFalso, 0, true⟩

def runFalso : RunResult × StoreState :=
  procesar_envios defaultConfig envFalso .absent

lemma exitosDe_nil (send : Usuario → SendR) : exitosDe send [] = [] := rfl

lemma fallosDe_nil (send : Usuario → SendR) : fallosDe send [] = [] := rfl

lemma exitosDe_append (send : Usuario → SendR) (a b : List Usuario) :
    exitosDe send (a ++ b) = exitosDe send a ++ exitosDe send b := by
  simp [exitosDe]

lemma fallosDe_append (send : Usuario → SendR) (a b : List Usuario) :
    fallosDe send (a ++ b) = fallosDe send a ++ fallosDe send b := by
  simp [fallosDe]

lemma aplicarMetrics_append (send : Usuario → SendR) (a b : List Usuario)
    (m : Metrics) :
    aplicarMetrics send (a ++ b) m
      = aplicarMetrics send b (aplicarMetrics send a m) := by
  simp [aplicarMetrics]

/-- The collection loop of `procesar_lote`, with a general accumulator:
results extend the accumulated lists exactly as the oracle dictates. -/
lemma loteFold (send : Usuario → SendR) :
    ∀ (l : List Usuario) (ex : List Usuario) (fa : List FailedEntry)
      (m : Metrics),
      l.foldl (loteStep send) ((ex, fa), m)
        = ((ex ++ exitosDe send l, fa ++ fallosDe send l),
           aplicarMetrics send l m) := by
  intro l
  induction l with
  | nil => intro ex fa m; simp [exitosDe, fallosDe, aplicarMetrics]
  | cons u rest ih =>
    intro ex fa m
    rw [List.foldl_cons]
    cases hsu : send u with
    | ok dur =>
      rw [show loteStep send ((ex, fa), m) u
            = ((ex ++ [u], fa), m.add_success dur) by
          simp [loteStep, procesar_usuario, hsu]]
      rw [ih]
      simp [exitosDe, fallosDe, aplicarMetrics, userMetric, hsu,
        List.filter_cons, SendR.isOk]
    | failed =>
      rw [show loteStep send ((ex, fa), m) u = ((ex, fa), m) by
          simp [loteStep, procesar_usuario, hsu]]
      rw [ih]
      simp [exitosDe, fallosDe, aplicarMetrics, userMetric, hsu,
        List.filter_cons, SendR.isOk]
    | raised msg =>
      rw [show loteStep send ((ex, fa), m) u
            = ((ex, fa ++ [⟨u, errMsgFor u msg, is_network_error msg⟩]),
               m.add_failure (errMsgFor u msg) (is_network_error msg)) by
          simp [loteStep, procesar_usuario, hsu]]
      rw [ih]
      simp [exitosDe, fallosDe, aplicarMetrics, userMetric, hsu,
        List.filter_cons, SendR.isOk]

/-- `procesar_lote` computes exactly the oracle-characterised partition. -/
lemma procesar_lote_eq (send : Usuario → SendR) (l : List Usuario)
    (m : Metrics) :
    procesar_lote send l m
      = ((exitosDe send l, fallosDe send l), aplicarMetrics send l m) := by
  have h := loteFold send l [] [] m
  simpa [procesar_lote] using h

lemma userMetric_exitosos (send : Usuario → SendR) (m : Metrics) (u : Usuario) :
    (userMetric send m u).exitosos
      = m.exitosos + (if (send u).isOk then 1 else 0) := by
  cases h : send u <;>
    simp [userMetric, h, Metrics.add_success, Metrics.add_failure, SendR.isOk]

lemma userMetric_fallidos (send : Usuario → SendR) (m : Metrics) (u : Usuario) :
    (userMetric send m u).fallidos
      = m.fallidos + (if (send u).isRaised then 1 else 0) := by
  cases h : send u <;>
    simp [userMetric, h, Metrics.add_success, Metrics.add_failure,
      SendR.isRaised]

lemma userMetric_total (send : Usuario → SendR) (m : Metrics) (u : Usuario) :
    (userMetric send m u).total_usuarios = m.total_usuarios := by
  cases h : send u <;>
    simp [userMetric, h, Metrics.add_success, Metrics.add_failure]

lemma userMetric_reint (send : Usuario → SendR) (m : Metrics) (u : Usuario) :
    (userMetric send m u).reintentos_diferidos = m.reintentos_diferidos := by
  cases h : send u <;>
    simp [userMetric, h, Metrics.add_success, Metrics.add_failure]

lemma aplicarMetrics_exitosos (send : Usuario → SendR) :
    ∀ (l : List Usuario) (m : Metrics),
      (aplicarMetrics send l m).exitosos
        = m.exitosos + (exitosDe send l).length := by
  intro l
  induction l with
  | nil => intro m; simp [aplicarMetrics, exitosDe]
  | cons u rest ih =>
    intro m
    rw [show aplicarMetrics send (u :: rest) m
          = aplicarMetrics send rest (userMetric send m u) from rfl]
    rw [ih, userMetric_exitosos]
    by_cases h : (send u).isOk = true <;>
      simp [exitosDe, List.filter_cons, h] <;> omega

lemma aplicarMetrics_fallidos (send : Usuario → SendR) :
    ∀ (l : List Usuario) (m : Metrics),
      (aplicarMetrics send l m).fallidos
        = m.fallidos + (fallosDe send l).length := by
  intro l
  induction l with
  | nil => intro m; simp [aplicarMetrics, fallosDe]
  | cons u rest ih =>
    intro m
    rw [show aplicarMetrics send (u :: rest) m
          = aplicarMetrics send rest (userMetric send m u) from rfl]
    rw [ih, userMetric_fallidos]
    cases h : send u <;>
      simp [fallosDe, List.filterMap_cons, h, SendR.isRaised] <;> omega

lemma aplicarMetrics_total (send : Usuario → SendR) :
    ∀ (l : List Usuario) (m : Metrics),
      (aplicarMetrics send l m).total_usuarios = m.total_usuarios := by
  intro l
  induction l with
  | nil => intro m; simp [aplicarMetrics]
  | cons u rest ih =>
    intro m
    rw [show aplicarMetrics send (u :: rest) m
          = aplicarMetrics send rest (userMetric send m u) from rfl]
    rw [ih, userMetric_total]

lemma aplicarMetrics_reint (send : Usuario → SendR) :
    ∀ (l : List Usuario) (m : Metrics),
      (aplicarMetrics send l m).reintentos_diferidos
        = m.reintentos_diferidos := by
  intro l
  induction l with
  | nil => intro m; simp [aplicarMetrics]
  | cons u rest ih =>
    intro m
    rw [show aplicarMetrics send (u :: rest) m
          = aplicarMetrics send rest (userMetric send m u) from rfl]
    rw [ih, userMetric_reint]

lemma deferFold_fields (ex : List Usuario) (m : Metrics) :
    (ex.foldl (fun mm _ => mm.add_deferred_retry) m).exitosos = m.exitosos
    ∧ (ex.foldl (fun mm _ => mm.add_deferred_retry) m).fallidos = m.fallidos
    ∧ (ex.foldl (fun mm _ => mm.add_deferred_retry) m).total_usuarios
        = m.total_usuarios
    ∧ (ex.foldl (fun mm _ => mm.add_deferred_retry) m).reintentos_diferidos
        = m.reintentos_diferidos + ex.length := by
  induction ex generalizing m with
  | nil => simp
  | cons u rest ih =>
    have h := ih (m := m.add_deferred_retry)
    simp only [List.foldl_cons]
    refine ⟨?_, ?_, ?_, ?_⟩
    · rw [h.1]; simp [Metrics.add_deferred_retry]
    · rw [h.2.1]; simp [Metrics.add_deferred_retry]
    · rw [h.2.2.1]; simp [Metrics.add_deferred_retry]
    · rw [h.2.2.2]; simp [Metrics.add_deferred_retry]; omega

lemma chunksAux_flatten (n : Nat) (hn : 0 < n) :
    ∀ (fuel : Nat) (l : List Usuario), l.length ≤ fuel →
      (chunksAux n fuel l).flatten = l := by
  intro fuel
  induction fuel with
  | zero =>
    intro l hl
    have : l = [] := List.length_eq_zero.mp (Nat.le_zero.mp hl)
    subst this
    simp [chunksAux]
  | succ fuel ih =>
    intro l hl
    cases l with
    | nil => simp [chunksAux]
    | cons a rest =>
      have hlen : ((a :: rest).drop n).length ≤ fuel := by
        rw [List.length_drop, List.length_cons]
        have : rest.length + 1 ≤ fuel + 1 := by
          simpa using hl
        omega
      rw [show chunksAux n (fuel + 1) (a :: rest)
            = (a :: rest).take n :: chunksAux n fuel ((a :: rest).drop n)
          from rfl]
      rw [List.flatten_cons, ih _ hlen, List.take_append_drop]

/-- Joining the batches gives back the recipient list. -/
lemma chunks_flatten (n : Nat) (hn : 0 < n) (l : List Usuario) :
    (chunks n l).flatten = l :=
  chunksAux_flatten n hn l.length l le_rfl

lemma chunksAux_mem_len (n : Nat) (hn : 0 < n) :
    ∀ (fuel : Nat) (l : List Usuario), l.length ≤ fuel →
      ∀ c ∈ chunksAux n fuel l, c ≠ [] ∧ c.length ≤ n := by
  intro fuel
  induction fuel with
  | zero =>
    intro l hl c hc
    have : l = [] := List.length_eq_zero.mp (Nat.le_zero.mp hl)
    subst this
    simp [chunksAux] at hc
  | succ fuel ih =>
    intro l hl c hc
    cases l with
    | nil => simp [chunksAux] at hc
    | cons a rest =>
      rw [show chunksAux n (fuel + 1) (a :: rest)
            = (a :: rest).take n :: chunksAux n fuel ((a :: rest).drop n)
          from rfl] at hc
      rcases List.mem_cons.mp hc with h | h
      · subst h
        constructor
        · have hpos : 0 < ((a :: rest).take n).length := by
            rw [List.length_take, List.length_cons]
            omega
          exact List.ne_nil_of_length_pos hpos
        · simpa using List.length_take_le n (a :: rest)
      · have hlen : ((a :: rest).drop n).length ≤ fuel := by
          rw [List.length_drop, List.length_cons]
          have : rest.length + 1 ≤ fuel + 1 := by
            simpa using hl
          omega
        exact ih _ hlen c h

/-- Every batch is nonempty and no longer than the batch size. -/
lemma chunks_mem_len (n : Nat) (hn : 0 < n) (l : List Usuario) :
    ∀ c ∈ chunks n l, c ≠ [] ∧ c.length ≤ n :=
  chunksAux_mem_len n hn l.length l le_rfl

lemma chunksAux_ne_nil (n : Nat) :
    ∀ (fuel : Nat) (l : List Usuario), l ≠ [] → l.length ≤ fuel →
      chunksAux n fuel l ≠ [] := by
  intro fuel l hne hl
  cases fuel with
  | zero =>
    exact absurd (List.length_eq_zero.mp (Nat.le_zero.mp hl)) hne
  | succ f =>
    cases l with
    | nil => exact absurd rfl hne
    | cons a rest => simp [chunksAux]

lemma chunksAux_dropLast_len (n : Nat) (hn : 0 < n) :
    ∀ (fuel : Nat) (l : List Usuario), l.length ≤ fuel →
      ∀ c ∈ (chunksAux n fuel l).dropLast, c.length = n := by
  intro fuel
  induction fuel with
  | zero =>
    intro l hl c hc
    have : l = [] := List.length_eq_zero.mp (Nat.le_zero.mp hl)
    subst this
    simp [chunksAux] at hc
  | succ fuel ih =>
    intro l hl c hc
    cases l with
    | nil => simp [chunksAux] at hc
    | cons a rest =>
      rw [show chunksAux n (fuel + 1) (a :: rest)
            = (a :: rest).take n :: chunksAux n fuel ((a :: rest).drop n)
          from rfl] at hc
      have hlen : ((a :: rest).drop n).length ≤ fuel := by
        rw [List.length_drop, List.length_cons]
        have : rest.length + 1 ≤ fuel + 1 := by
          simpa using hl
        omega
      by_cases hd : (a :: rest).drop n = []
      · have : chunksAux n fuel ((a :: rest).drop n) = [] := by
          rw [hd]; cases fuel <;> simp [chunksAux]
        rw [this] at hc
        simp at hc
      · have hne : chunksAux n fuel ((a :: rest).drop n) ≠ [] :=
          chunksAux_ne_nil n fuel _ hd hlen
        rw [List.dropLast_cons_of_ne_nil hne] at hc
        rcases List.mem_cons.mp hc with h | h
        · subst h
          have hgt : n < (a :: rest).length := by
            by_contra hle
            exact hd (List.drop_eq_nil_of_le (by omega))
          rw [List.length_take]
          omega
        · exact ih _ hlen c h

/-- Every batch except the last has exactly the configured size. -/
lemma chunks_dropLast_len (n : Nat) (hn : 0 < n) (l : List Usuario) :
    ∀ c ∈ (chunks n l).dropLast, c.length = n :=
  chunksAux_dropLast_len n hn l.length l le_rfl

/-- The batch loop with a general accumulator: concatenating the per-batch
partitions gives the oracle-characterised partition of the flattened list. -/
lemma dispatchFold (send : Usuario → SendR) (ir : Bool) :
    ∀ (L : List (List Usuario)) (ex : List Usuario) (fa : List FailedEntry)
      (m : Metrics),
      L.foldl (dispatchStep send ir) ((ex, fa), m)
        = ((ex ++ exitosDe send L.flatten, fa ++ fallosDe send L.flatten),
           dispatchMetrics send ir L m) := by
  intro L
  induction L with
  | nil => intro ex fa m; simp [exitosDe, fallosDe, dispatchMetrics]
  | cons lote L ih =>
    intro ex fa m
    rw [List.foldl_cons]
    rw [show dispatchStep send ir ((ex, fa), m) lote
          = ((ex ++ exitosDe send lote, fa ++ fallosDe send lote),
             if ir
             then (exitosDe send lote).foldl (fun x _ => x.add_deferred_retry)
                    (aplicarMetrics send lote m)
             else aplicarMetrics send lote m) by
        simp [dispatchStep, procesar_lote_eq]]
    rw [ih]
    rw [show dispatchMetrics send ir (lote :: L) m
          = dispatchMetrics send ir L
              (if ir
               then (exitosDe send lote).foldl
                      (fun x _ => x.add_deferred_retry)
                      (aplicarMetrics send lote m)
               else aplicarMetrics send lote m) from rfl]
    simp [List.flatten_cons, exitosDe_append, fallosDe_append,
      List.append_assoc]

/-- `dispatchLotes` computes exactly the oracle-characterised partition of
the whole recipient list. -/
lemma dispatchLotes_eq (cfg : Config) (send : Usuario → SendR) (ir : Bool)
    (l : List Usuario) (m : Metrics) (hn : 0 < cfg.batch_size) :
    dispatchLotes cfg send ir l m
      = ((exitosDe send l, fallosDe send l),
         dispatchMetrics send ir (chunks cfg.batch_size l) m) := by
  rw [dispatchLotes, dispatchFold]
  simp [chunks_flatten cfg.batch_size hn]

lemma dispatchMetrics_fields (send : Usuario → SendR) (ir : Bool) :
    ∀ (L : List (List Usuario)) (m : Metrics),
      (dispatchMetrics send ir L m).exitosos
          = m.exitosos + (exitosDe send L.flatten).length
      ∧ (dispatchMetrics send ir L m).fallidos
          = m.fallidos + (fallosDe send L.flatten).length
      ∧ (dispatchMetrics send ir L m).total_usuarios = m.total_usuarios
      ∧ (dispatchMetrics send ir L m).reintentos_diferidos
          = m.reintentos_diferidos
            + (if ir then (exitosDe send L.flatten).length else 0) := by
  intro L
  induction L with
  | nil => intro m; simp [dispatchMetrics, exitosDe, fallosDe]
  | cons lote L ih =>
    intro m
    cases ir with
    | false =>
      have hstep : dispatchMetrics send false (lote :: L) m
          = dispatchMetrics send false L (aplicarMetrics send lote m) := by
        simp [dispatchMetrics]
      rw [hstep]
      have h := ih (m := aplicarMetrics send lote m)
      refine ⟨?_, ?_, ?_, ?_⟩
      · rw [h.1, aplicarMetrics_exitosos]
        simp [List.flatten_cons, exitosDe_append]
        omega
      · rw [h.2.1, aplicarMetrics_fallidos]
        simp [List.flatten_cons, fallosDe_append]
        omega
      · rw [h.2.2.1, aplicarMetrics_total]
      · rw [h.2.2.2, aplicarMetrics_reint]
        simp
    | true =>
      have hstep : dispatchMetrics send true (lote :: L) m
          = dispatchMetrics send true L
              ((exitosDe send lote).foldl (fun x _ => x.add_deferred_retry)
                (aplicarMetrics send lote m)) := by
        simp [dispatchMetrics]
      rw [hstep]
      have h := ih
        (m := (exitosDe send lote).foldl (fun x _ => x.add_deferred_retry)
                (aplicarMetrics send lote m))
      have hd := deferFold_fields (exitosDe send lote)
        (aplicarMetrics send lote m)
      refine ⟨?_, ?_, ?_, ?_⟩
      · rw [h.1, hd.1, aplicarMetrics_exitosos]
        simp [List.flatten_cons, exitosDe_append]
        omega
      · rw [h.2.1, hd.2.1, aplicarMetrics_fallidos]
        simp [List.flatten_cons, fallosDe_append]
        omega
      · rw [h.2.2.1, hd.2.2.1, aplicarMetrics_total]
      · rw [h.2.2.2, hd.2.2.2, aplicarMetrics_reint]
        simp [List.flatten_cons, exitosDe_append]
        omega

lemma fallosDe_map_usuario (send : Usuario → SendR) :
    ∀ l : List Usuario,
      (fallosDe send l).map FailedEntry.usuario
        = l.filter (fun u => (send u).isRaised) := by
  intro l
  induction l with
  | nil => simp [fallosDe]
  | cons u rest ih =>
    cases h : send u <;>
      simp [fallosDe, List.filterMap_cons, List.filter_cons, h,
        SendR.isRaised] <;>
      simpa [fallosDe] using ih

lemma fallosDe_mem (send : Usuario → SendR) :
    ∀ (l : List Usuario) (e : FailedEntry), e ∈ fallosDe send l →
      e.usuario ∈ l ∧ ∃ msg, send e.usuario = .raised msg
        ∧ e = ⟨e.usuario, errMsgFor e.usuario msg, is_network_error msg⟩ := by
  intro l
  induction l with
  | nil => intro e he; simp [fallosDe] at he
  | cons u rest ih =>
    intro e he
    cases h : send u with
    | ok dur =>
      rw [show fallosDe send (u :: rest) = fallosDe send rest by
        simp [fallosDe, List.filterMap_cons, h]] at he
      have := ih e he
      exact ⟨List.mem_cons_of_mem u this.1, this.2⟩
    | failed =>
      rw [show fallosDe send (u :: rest) = fallosDe send rest by
        simp [fallosDe, List.filterMap_cons, h]] at he
      have := ih e he
      exact ⟨List.mem_cons_of_mem u this.1, this.2⟩
    | raised msg =>
      rw [show fallosDe send (u :: rest)
            = ⟨u, errMsgFor u msg, is_network_error msg⟩ :: fallosDe send rest
          by simp [fallosDe, List.filterMap_cons, h]] at he
      rcases List.mem_cons.mp he with h1 | h1
      · subst h1
        exact ⟨List.mem_cons_self u rest, msg, h, rfl⟩
      · have := ih e h1
        exact ⟨List.mem_cons_of_mem u this.1, this.2⟩

/-- Every recipient of a batch contributes exactly one decision: success,
raised failure, or silent False return. -/
lemma tripartite_len (send : Usuario → SendR) :
    ∀ l : List Usuario,
      (exitosDe send l).length + (fallosDe send l).length
        + (l.filter (fun u => (send u).isFailedR)).length = l.length := by
  intro l
  induction l with
  | nil => simp [exitosDe, fallosDe]
  | cons u rest ih =>
    cases h : send u with
    | ok dur =>
      rw [show exitosDe send (u :: rest) = u :: exitosDe send rest by
            simp [exitosDe, List.filter_cons, h, SendR.isOk],
          show fallosDe send (u :: rest) = fallosDe send rest by
            simp [fallosDe, List.filterMap_cons, h],
          show (u :: rest).filter (fun v => (send v).isFailedR)
              = rest.filter (fun v => (send v).isFailedR) by
            simp [List.filter_cons, h, SendR.isFailedR]]
      simp only [List.length_cons]
      omega
    | failed =>
      rw [show exitosDe send (u :: rest) = exitosDe send rest by
            simp [exitosDe, List.filter_cons, h, SendR.isOk],
          show fallosDe send (u :: rest) = fallosDe send rest by
            simp [fallosDe, List.filterMap_cons, h],
          show (u :: rest).filter (fun v => (send v).isFailedR)
              = u :: rest.filter (fun v => (send v).isFailedR) by
            simp [List.filter_cons, h, SendR.isFailedR]]
      simp only [List.length_cons]
      omega
    | raised msg =>
      rw [show exitosDe send (u :: rest) = exitosDe send rest by
            simp [exitosDe, List.filter_cons, h, SendR.isOk],
          show fallosDe send (u :: rest)
              = ⟨u, errMsgFor u msg, is_network_error msg⟩
                  :: fallosDe send rest by
            simp [fallosDe, List.filterMap_cons, h],
          show (u :: rest).filter (fun v => (send v).isFailedR)
              = rest.filter (fun v => (send v).isFailedR) by
            simp [List.filter_cons, h, SendR.isFailedR]]
      simp only [List.length_cons]
      omega

lemma startsWithChars_iff :
    ∀ (sub l : List Char),
      startsWithChars sub l = true ↔ ∃ q, l = sub ++ q := by
  intro sub
  induction sub with
  | nil =>
    intro l
    simp [startsWithChars]
  | cons a as ih =>
    intro l
    cases l with
    | nil =>
      simp only [startsWithChars]
      constructor
      · intro h; exact absurd h (by simp)
      · rintro ⟨q, hq⟩; exact absurd hq (by simp)
    | cons b bs =>
      simp only [startsWithChars, Bool.and_eq_true, beq_iff_eq, ih]
      constructor
      · rintro ⟨hab, q, hq⟩
        exact ⟨q, by simp [hab, hq]⟩
      · rintro ⟨q, hq⟩
        rw [List.cons_append] at hq
        injection hq with h1 h2
        exact ⟨h1.symm, q, h2⟩

lemma hasSubChars_iff :
    ∀ (l sub : List Char),
      hasSubChars sub l = true ↔ ∃ p q, l = p ++ (sub ++ q) := by
  intro l
  induction l with
  | nil =>
    intro sub
    simp only [hasSubChars, startsWithChars_iff]
    constructor
    · rintro ⟨q, hq⟩; exact ⟨[], q, by simpa using hq⟩
    · rintro ⟨p, q, hq⟩
      rcases List.append_eq_nil.mp hq.symm with ⟨hp, hsq⟩
      exact ⟨q, by simp [hsq]⟩
  | cons c cs ih =>
    intro sub
    simp only [hasSubChars, Bool.or_eq_true, startsWithChars_iff, ih]
    constructor
    · rintro (⟨q, hq⟩ | ⟨p, q, hq⟩)
      · exact ⟨[], q, by simpa using hq⟩
      · exact ⟨c :: p, q, by simp [hq]⟩
    · rintro ⟨p, q, hq⟩
      cases p with
      | nil => exact Or.inl ⟨q, by simpa using hq⟩
      | cons d ds =>
        rw [List.cons_append] at hq
        injection hq with h1 h2
        exact Or.inr ⟨ds, q, h2⟩

lemma containsSub_iff (sub msg : String) :
    containsSub sub msg = true ↔ OccursIn sub msg :=
  hasSubChars_iff msg.data sub.data

lemma applySucc_tiempo :
    ∀ (ds : List ℚ) (m : Metrics),
      (applySucc ds m).tiempo_promedio_envio
        = m.tiempo_promedio_envio ++ ds := by
  intro ds
  induction ds with
  | nil => intro m; simp [applySucc]
  | cons d rest ih =>
    intro m
    rw [show applySucc (d :: rest) m = applySucc rest (m.add_success d)
        from rfl]
    rw [ih]
    simp [Metrics.add_success]

lemma reintentos_none (cfg : Config) (env : Env) (s : StoreState) (m : Metrics)
    (hl : load_failed_users env.now s = none) :
    procesar_reintentos_diferidos cfg env s m
      = (RunResult.fail "No hay reintentos pendientes", s, m) := by
  simp [procesar_reintentos_diferidos, hl]

lemma reintentos_empty (cfg : Config) (env : Env) (s : StoreState)
    (m : Metrics) (rec : StoredRecord)
    (hl : load_failed_users env.now s = some rec)
    (he : ((rec.failed_users.filter (fun it => it.is_network_error)).map
        (fun it => it.usuario)).isEmpty = true) :
    procesar_reintentos_diferidos cfg env s m
      = (RunResult.fail "No hay errores de red para reintentar",
         clear_failed_users s, m) := by
  simp [procesar_reintentos_diferidos, hl, he]

lemma reintentos_dispatch (cfg : Config) (env : Env) (s : StoreState)
    (m : Metrics) (rec : StoredRecord) (fu : List Usuario)
    (hl : load_failed_users env.now s = some rec)
    (hfu : fu = (rec.failed_users.filter (fun it => it.is_network_error)).map
        (fun it => it.usuario))
    (hne : fu.isEmpty = false)
    (hb : 0 < cfg.batch_size) :
    procesar_reintentos_diferidos cfg env s m
      = (⟨true, true, none, some rec.frase_data.id, fu.length,
          (exitosDe env.send fu).length, (fallosDe env.send fu).length,
          none, none, exitosDe env.send fu, fallosDe env.send fu,
          some (dispatchMetrics env.send true (chunks cfg.batch_size fu)
            (m.set_total_usuarios fu.length)).finalizar⟩,
         (if ((fallosDe env.send fu).filter
              (fun e => e.is_network_error)).isEmpty
          then clear_failed_users s
          else save_failed_users cfg env.now env.writeOk
                 ((fallosDe env.send fu).filter (fun e => e.is_network_error))
                 rec.frase_data s),
         dispatchMetrics env.send true (chunks cfg.batch_size fu)
           (m.set_total_usuarios fu.length)) := by
  subst hfu
  simp only [procesar_reintentos_diferidos, hl, hne, Bool.false_eq_true,
    if_false, dispatchLotes_eq _ _ _ _ _ hb]

lemma envios_of_retry (cfg : Config) (env : Env) (s : StoreState)
    (r0 : RunResult) (s1 : StoreState) (m1 : Metrics)
    (hr : procesar_reintentos_diferidos cfg env s Metrics.init = (r0, s1, m1))
    (hs : r0.success = true) :
    procesar_envios cfg env s = (r0, s1) := by
  simp [procesar_envios, hr, hs]

lemma envios_no_frase (cfg : Config) (env : Env) (s : StoreState)
    (r0 : RunResult) (s1 : StoreState) (m1 : Metrics)
    (hr : procesar_reintentos_diferidos cfg env s Metrics.init = (r0, s1, m1))
    (hs : r0.success = false)
    (hf : env.frase = none) :
    procesar_envios cfg env s = (RunResult.fail "No hay frase para hoy", s1) := by
  simp [procesar_envios, hr, hs, hf]

lemma envios_no_usuarios (cfg : Config) (env : Env) (s : StoreState)
    (r0 : RunResult) (s1 : StoreState) (m1 : Metrics) (f : FraseData)
    (hr : procesar_reintentos_diferidos cfg env s Metrics.init = (r0, s1, m1))
    (hs : r0.success = false)
    (hf : env.frase = some f)
    (hu : env.usuarios_activos.isEmpty = true) :
    procesar_envios cfg env s
      = (RunResult.fail "No hay usuarios activos", s1) := by
  simp [procesar_envios, hr, hs, hf, hu]

lemma envios_dispatch (cfg : Config) (env : Env) (s : StoreState)
    (r0 : RunResult) (s1 : StoreState) (m1 : Metrics) (f : FraseData)
    (hr : procesar_reintentos_diferidos cfg env s Metrics.init = (r0, s1, m1))
    (hs : r0.success = false)
    (hf : env.frase = some f)
    (hu : env.usuarios_activos.isEmpty = false)
    (hb : 0 < cfg.batch_size) :
    procesar_envios cfg env s
      = (⟨true, false, none, some f.id, env.usuarios_activos.length,
          (exitosDe env.send env.usuarios_activos).length,
          (fallosDe env.send env.usuarios_activos).length,
          some ((fallosDe env.send env.usuarios_activos).filter
            (fun e => e.is_network_error)).length,
          some ((fallosDe env.send env.usuarios_activos).filter
            (fun e => !e.is_network_error)).length,
          exitosDe env.send env.usuarios_activos,
          fallosDe env.send env.usuarios_activos,
          some (dispatchMetrics env.send false
            (chunks cfg.batch_size env.usuarios_activos)
            (m1.set_total_usuarios env.usuarios_activos.length)).finalizar⟩,
         (if ((fallosDe env.send env.usuarios_activos).filter
              (fun e => e.is_network_error)).isEmpty
          then s1
          else save_failed_users cfg env.now env.writeOk
                 ((fallosDe env.send env.usuarios_activos).filter
                   (fun e => e.is_network_error)) f s1)) := by
  simp only [procesar_envios, hr, hs, hf, hu, Bool.false_eq_true, if_false,
    dispatchLotes_eq _ _ _ _ _ hb]

lemma reintentos_dispatch_raw (cfg : Config) (env : Env) (s : StoreState)
    (m : Metrics) (rec : StoredRecord) (fu ex : List Usuario)
    (fa : List FailedEntry) (m2 : Metrics)
    (hl : load_failed_users env.now s = some rec)
    (hfu : fu = (rec.failed_users.filter (fun it => it.is_network_error)).map
        (fun it => it.usuario))
    (hne : fu.isEmpty = false)
    (hd : dispatchLotes cfg env.send true fu (m.set_total_usuarios fu.length)
        = ((ex, fa), m2)) :
    procesar_reintentos_diferidos cfg env s m
      = (⟨true, true, none, some rec.frase_data.id, fu.length,
          ex.length, fa.length, none, none, ex, fa, some m2.finalizar⟩,
         (if (fa.filter (fun e => e.is_network_error)).isEmpty
          then clear_failed_users s
          else save_failed_users cfg env.now env.writeOk
                 (fa.filter (fun e => e.is_network_error)) rec.frase_data s),
         m2) := by
  subst hfu
  simp only [procesar_reintentos_diferidos, hl, hne, Bool.false_eq_true,
    if_false, hd]

lemma envios_dispatch_raw (cfg : Config) (env : Env) (s : StoreState)
    (r0 : RunResult) (s1 : StoreState) (m1 : Metrics) (f : FraseData)
    (ex : List Usuario) (fa : List FailedEntry) (m3 : Metrics)
    (hr : procesar_reintentos_diferidos cfg env s Metrics.init = (r0, s1, m1))
    (hs : r0.success = false)
    (hf : env.frase = some f)
    (hu : env.usuarios_activos.isEmpty = false)
    (hd : dispatchLotes cfg env.send false env.usuarios_activos
        (m1.set_total_usuarios env.usuarios_activos.length) = ((ex, fa), m3)) :
    procesar_envios cfg env s
      = (⟨true, false, none, some f.id, env.usuarios_activos.length,
          ex.length, fa.length,
          some (fa.filter (fun e => e.is_network_error)).length,
          some (fa.filter (fun e => !e.is_network_error)).length,
          ex, fa, some m3.finalizar⟩,
         (if (fa.filter (fun e => e.is_network_error)).isEmpty
          then s1
          else save_failed_users cfg env.now env.writeOk
                 (fa.filter (fun e => e.is_network_error)) f s1)) := by
  simp only [procesar_envios, hr, hs, hf, hu, Bool.false_eq_true, if_false,
    hd]

lemma reintentos_success_total_pos (cfg : Config) (env : Env) (s : StoreState)
    (m : Metrics) :
    (procesar_reintentos_diferidos cfg env s m).1.success = true →
    0 < (procesar_reintentos_diferidos cfg env s m).1.total_usuarios := by
  intro h
  cases hl : load_failed_users env.now s with
  | none =>
    rw [reintentos_none cfg env s m hl] at h
    simp [RunResult.fail] at h
  | some rec =>
    cases hne : ((rec.failed_users.filter (fun it => it.is_network_error)).map
        (fun it => it.usuario)).isEmpty with
    | true =>
      rw [reintentos_empty cfg env s m rec hl hne] at h
      simp [RunResult.fail] at h
    | false =>
      rcases hd : dispatchLotes cfg env.send true
          ((rec.failed_users.filter (fun it => it.is_network_error)).map
            (fun it => it.usuario))
          (m.set_total_usuarios
            ((rec.failed_users.filter (fun it => it.is_network_error)).map
              (fun it => it.usuario)).length) with ⟨⟨ex, fa⟩, m2⟩
      rw [reintentos_dispatch_raw cfg env s m rec _ ex fa m2 hl rfl hne hd]
      have : ((rec.failed_users.filter (fun it => it.is_network_error)).map
          (fun it => it.usuario)) ≠ [] := by
        intro hnil
        rw [hnil] at hne
        simp at hne
      simpa using List.length_pos.mpr this

lemma envios_success_total_pos (cfg : Config) (env : Env) (s : StoreState) :
    (procesar_envios cfg env s).1.success = true →
    0 < (procesar_envios cfg env s).1.total_usuarios := by
  intro h
  rcases hr : procesar_reintentos_diferidos cfg env s Metrics.init
    with ⟨r0, s1, m1⟩
  by_cases hs : r0.success = true
  · rw [envios_of_retry cfg env s r0 s1 m1 hr hs]
    have := reintentos_success_total_pos cfg env s Metrics.init
    rw [hr] at this
    exact this hs
  · have hs2 : r0.success = false := by
      cases hval : r0.success
      · rfl
      · exact absurd hval hs
    cases hf : env.frase with
    | none =>
      rw [envios_no_frase cfg env s r0 s1 m1 hr hs2 hf] at h
      simp [RunResult.fail] at h
    | some f =>
      cases hu : env.usuarios_activos.isEmpty with
      | true =>
        rw [envios_no_usuarios cfg env s r0 s1 m1 f hr hs2 hf hu] at h
        simp [RunResult.fail] at h
      | false =>
        rcases hd : dispatchLotes cfg env.send false env.usuarios_activos
            (m1.set_total_usuarios env.usuarios_activos.length)
          with ⟨⟨ex, fa⟩, m3⟩
        rw [envios_dispatch_raw cfg env s r0 s1 m1 f ex fa m3 hr hs2 hf hu hd]
        have : env.usuarios_activos ≠ [] := by
          intro hnil
          rw [hnil] at hu
          simp at hu
        simpa using List.length_pos.mpr this

/-- Claim C1 (counterexample): with one recipient whose transport reports
failure by returning False, the run completes successfully but the recipient
appears in neither outcome list, and succeeded + failed differs from total —
the success and failure sets do not cover R. -/
theorem c1_counterexample :
    runFalso.1.success = true
    ∧ runFalso.1.total_usuarios = 1
    ∧ runFalso.1.usuarios_exitosos = []
    ∧ runFalso.1.usuarios_fallidos = []
    ∧ u1 ∉ runFalso.1.usuarios_exitosos
        ++ runFalso.1.usuarios_fallidos.map FailedEntry.usuario
    ∧ ¬(runFalso.1.exitosos + runFalso.1.fallidos
          = runFalso.1.total_usuarios) := by
  decide

/-- Claim C1 (amended): for every recipient list and transport, the
dispatch's successes are exactly the recipients whose transport call
returned True and its failures exactly those whose call raised; the two
sets are disjoint; the metrics counters equal the list lengths; and
succeeded + failed is at most total, with the union equal to the whole
recipient set whenever no transport call returns False. -/
theorem c1_partition (cfg : Config) (send : Usuario → SendR) (ir : Bool)
    (l : List Usuario) (m : Metrics) (hb : 0 < cfg.batch_size) :
    (dispatchLotes cfg send ir l m).1.1
        = l.filter (fun u => (send u).isOk)
    ∧ (dispatchLotes cfg send ir l m).1.2.map FailedEntry.usuario
        = l.filter (fun u => (send u).isRaised)
    ∧ (∀ u, ¬(u ∈ (dispatchLotes cfg send ir l m).1.1
          ∧ u ∈ (dispatchLotes cfg send ir l m).1.2.map FailedEntry.usuario))
    ∧ (dispatchLotes cfg send ir l m).2.exitosos
        = m.exitosos + (dispatchLotes cfg send ir l m).1.1.length
    ∧ (dispatchLotes cfg send ir l m).2.fallidos
        = m.fallidos + (dispatchLotes cfg send ir l m).1.2.length
    ∧ (dispatchLotes cfg send ir l m).1.1.length
        + (dispatchLotes cfg send ir l m).1.2.length ≤ l.length
    ∧ ((∀ u ∈ l, send u ≠ .failed) →
        ∀ u, u ∈ l ↔ (u ∈ (dispatchLotes cfg send ir l m).1.1
          ∨ u ∈ (dispatchLotes cfg send ir l m).1.2.map FailedEntry.usuario)) := by
  have hD := dispatchLotes_eq cfg send ir l m hb
  refine ⟨?_, ?_, ?_, ?_, ?_, ?_, ?_⟩
  · rw [hD]; rfl
  · rw [hD]; exact fallosDe_map_usuario send l
  · intro u hu
    rw [hD] at hu
    obtain ⟨h1, h2⟩ := hu
    have ho := (List.mem_filter.mp
      (show u ∈ l.filter (fun v => (send v).isOk) from h1)).2
    have hr2 : u ∈ l.filter (fun v => (send v).isRaised) := by
      rw [← fallosDe_map_usuario]
      exact h2
    have hr3 := (List.mem_filter.mp hr2).2
    cases hsu : send u <;> simp [hsu, SendR.isOk, SendR.isRaised] at ho hr3
  · have hf := (dispatchMetrics_fields send ir (chunks cfg.batch_size l) m).1
    rw [chunks_flatten cfg.batch_size hb l] at hf
    rw [hD]
    exact hf
  · have hf := (dispatchMetrics_fields send ir (chunks cfg.batch_size l) m).2.1
    rw [chunks_flatten cfg.batch_size hb l] at hf
    rw [hD]
    exact hf
  · rw [hD]
    show (exitosDe send l).length + (fallosDe send l).length ≤ l.length
    have ht := tripartite_len send l
    omega
  · intro hno u
    constructor
    · intro hu
      cases hsu : send u with
      | ok dur =>
        left
        rw [hD]
        exact List.mem_filter.mpr ⟨hu, by simp [hsu, SendR.isOk]⟩
      | failed => exact absurd hsu (hno u hu)
      | raised msg =>
        right
        rw [hD]
        show u ∈ (fallosDe send l).map FailedEntry.usuario
        rw [fallosDe_map_usuario]
        exact List.mem_filter.mpr ⟨hu, by simp [hsu, SendR.isRaised]⟩
    · intro hor
      rcases hor with h | h
      · rw [hD] at h
        exact (List.mem_filter.mp
          (show u ∈ l.filter (fun v => (send v).isOk) from h)).1
      · rw [hD] at h
        have hm : u ∈ l.filter (fun v => (send v).isRaised) := by
          rw [← fallosDe_map_usuario]
          exact h
        exact (List.mem_filter.mp hm).1

/-- Claim C1 (witness): the partition theorem evaluated on a mixed
transport over three recipients. -/
theorem c1_partition_witness :
    (dispatchLotes defaultConfig sendMix false [u1, u2, u3] Metrics.init).1.1
        = [u1]
    ∧ (dispatchLotes defaultConfig sendMix false [u1, u2, u3]
        Metrics.init).1.2.map FailedEntry.usuario = [u2]
    ∧ (dispatchLotes defaultConfig sendMix false [u1, u2, u3]
        Metrics.init).2.exitosos = 1
    ∧ (dispatchLotes defaultConfig sendMix false [u1, u2, u3]
        Metrics.init).2.fallidos = 1 := by
  have h := c1_partition defaultConfig sendMix false [u1, u2, u3]
    Metrics.init (by decide)
  refine ⟨?_, ?_, ?_, ?_⟩
  · rw [h.1]; decide
  · rw [h.2.1]; decide
  · rw [h.2.2.2.1, h.1]; decide
  · rw [h.2.2.2.2.1]
    rw [show ((dispatchLotes defaultConfig sendMix false [u1, u2, u3]
        Metrics.init).1.2).length
      = (((dispatchLotes defaultConfig sendMix false [u1, u2, u3]
        Metrics.init).1.2).map FailedEntry.usuario).length
      from (List.length_map _ _).symm]
    rw [h.2.1]
    decide

/-- Claim C2 (counterexample): in the three-recipient network-down scenario,
the second run invoked 1 minute later does perform deliveries (a fresh
dispatch attempts and fails all 3 recipients) and does change the stored
record (its retry_after moves from minute 30 to minute 31), contradicting
the claim that it performs no deliveries and leaves the record unchanged. -/
theorem c2_counterexample :
    run2.1.is_retry = false
    ∧ run2.1.total_usuarios = 3
    ∧ run2.1.fallidos = 3
    ∧ ¬(run2.2 = run1.2) := by
  decide

/-- Claim C2 (amended): fresh run over 3 recipients, transport failing all
3 with a network-unreachable message, leaves a record with exactly those 3
recipients and retry_after 30 minutes ahead; a second run 1 minute later
does not consume the record (not due) but proceeds to a fresh dispatch to
the active recipients — with the network still down it overwrites the
record with a new retry_after 30 minutes from that run; a third run once
the cooldown has passed consumes the record, attempts exactly those 3
recipients again, succeeds, and clears the store. -/
theorem c2_scenario :
    run1.1.success = true
    ∧ run1.1.is_retry = false
    ∧ run1.1.fallidos = 3
    ∧ run1.2 = .record ⟨frEj, [entryRed u1, entryRed u2, entryRed u3], 30⟩
    ∧ run2.1.is_retry = false
    ∧ run2.1.total_usuarios = 3
    ∧ run2.1.fallidos = 3
    ∧ run2.2 = .record ⟨frEj, [entryRed u1, entryRed u2, entryRed u3], 31⟩
    ∧ run3.1.is_retry = true
    ∧ run3.1.total_usuarios = 3
    ∧ run3.1.exitosos = 3
    ∧ run3.1.usuarios_exitosos = [u1, u2, u3]
    ∧ run3.2 = .absent := by
  decide

/-- Claim C3 (counterexample): when there is no payload for today (a
no-work run), `procesar_envios` reports failure and `main` exits with
code 1, not 0 — the empty-work case is treated as an error by the exit
contract. -/
theorem c3_counterexample :
    (procesar_envios defaultConfig ⟨none, [], sendBien, 0, true⟩ .absent).1.error
        = some "No hay frase para hoy"
    ∧ EnvioFrases.main defaultConfig true ⟨none, [], sendBien, 0, true⟩ .absent
        = 1 := by
  decide

/-- Claim C3 (amended): the process exit code is 0 exactly when
configuration validation passed, the run reported success, and at least one
delivery succeeded; every other outcome — including the no-work cases (no
payload, no active recipients), which return failure dicts — exits 1. -/
theorem c3_exit_code (cfg : Config) (valid : Bool) (env : Env)
    (s : StoreState) :
    (EnvioFrases.main cfg valid env s = 0
      ↔ (valid = true ∧ (procesar_envios cfg env s).1.success = true
          ∧ 0 < (procesar_envios cfg env s).1.exitosos))
    ∧ (EnvioFrases.main cfg valid env s = 0
        ∨ EnvioFrases.main cfg valid env s = 1) := by
  cases valid with
  | false =>
    constructor
    · constructor
      · intro h
        simp [EnvioFrases.main] at h
      · rintro ⟨h, -, -⟩
        exact absurd h (by simp)
    · right
      simp [EnvioFrases.main]
  | true =>
    have hmain : EnvioFrases.main cfg true env s
        = (if (procesar_envios cfg env s).1.success then
            (if (procesar_envios cfg env s).1.exitosos
                = (procesar_envios cfg env s).1.total_usuarios then 0
             else if 0 < (procesar_envios cfg env s).1.exitosos then 0
             else 1)
           else 1) := by
      simp [EnvioFrases.main]
    rw [hmain]
    by_cases hsucc : (procesar_envios cfg env s).1.success = true
    · have htot := envios_success_total_pos cfg env s hsucc
      simp only [hsucc, if_true]
      by_cases heq : (procesar_envios cfg env s).1.exitosos
          = (procesar_envios cfg env s).1.total_usuarios
      · rw [if_pos heq]
        exact ⟨⟨fun _ => ⟨by trivial, by simp [hsucc], by omega⟩,
          fun _ => by trivial⟩, Or.inl (by trivial)⟩
      · rw [if_neg heq]
        by_cases hex : 0 < (procesar_envios cfg env s).1.exitosos
        · rw [if_pos hex]
          exact ⟨⟨fun _ => ⟨by trivial, by simp [hsucc], hex⟩,
            fun _ => by trivial⟩, Or.inl (by trivial)⟩
        · rw [if_neg hex]
          refine ⟨⟨fun h => absurd h (by omega), ?_⟩, Or.inr (by trivial)⟩
          rintro ⟨-, -, hx⟩
          exact absurd hx hex
    · have hfalse : (procesar_envios cfg env s).1.success = false := by
        cases hv : (procesar_envios cfg env s).1.success
        · rfl
        · exact absurd hv hsucc
      simp only [hfalse, Bool.false_eq_true, if_false]
      refine ⟨⟨fun h => absurd h (by omega), ?_⟩, Or.inr (by trivial)⟩
      rintro ⟨-, hsu, -⟩
      exact hsu.elim

/-- Claim C4 (counterexample): a fresh run whose dispatch leaves no
transient failures does not clear the retry store — a stale, not-yet-due
record survives the reconcile step untouched. -/
theorem c4_counterexample :
    (procesar_envios defaultConfig ⟨some frEj, [u2], sendBien, 0, true⟩
        (.record ⟨frEj, [entryRed u1], 100⟩)).1.success = true
    ∧ (procesar_envios defaultConfig ⟨some frEj, [u2], sendBien, 0, true⟩
        (.record ⟨frEj, [entryRed u1], 100⟩)).1.fallidos = 0
    ∧ (procesar_envios defaultConfig ⟨some frEj, [u2], sendBien, 0, true⟩
        (.record ⟨frEj, [entryRed u1], 100⟩)).2
        = .record ⟨frEj, [entryRed u1], 100⟩
    ∧ ¬((procesar_envios defaultConfig ⟨some frEj, [u2], sendBien, 0, true⟩
        (.record ⟨frEj, [entryRed u1], 100⟩)).2 = .absent) := by
  decide

/-- Claim C4 (amended): at the reconcile step of a deferred-retry run the
store is saved with exactly the remaining transient failures and the stored
payload when any remain, and cleared otherwise; at the reconcile step of a
fresh run the store is saved with exactly the transient failures and the
run's payload when any remain, but left untouched (not cleared) when none
remain. -/
theorem c4_reconcile (cfg : Config) (env : Env) (s : StoreState)
    (hb : 0 < cfg.batch_size) (hw : env.writeOk = true) :
    (∀ (rec : StoredRecord) (fu : List Usuario),
      load_failed_users env.now s = some rec →
      fu = (rec.failed_users.filter (fun it => it.is_network_error)).map
          (fun it => it.usuario) →
      fu.isEmpty = false →
        (procesar_envios cfg env s).2
          = (if ((fallosDe env.send fu).filter
                (fun e => e.is_network_error)).isEmpty
             then .absent
             else .record ⟨rec.frase_data,
                    (fallosDe env.send fu).filter
                      (fun e => e.is_network_error),
                    env.now + cfg.retry_delay_minutes⟩))
    ∧ (∀ f : FraseData,
        load_failed_users env.now s = none →
        env.frase = some f →
        env.usuarios_activos.isEmpty = false →
          (procesar_envios cfg env s).2
            = (if ((fallosDe env.send env.usuarios_activos).filter
                  (fun e => e.is_network_error)).isEmpty
               then s
               else .record ⟨f,
                      (fallosDe env.send env.usuarios_activos).filter
                        (fun e => e.is_network_error),
                      env.now + cfg.retry_delay_minutes⟩)) := by
  constructor
  · intro rec fu hl hfu hne
    have hre := reintentos_dispatch cfg env s Metrics.init rec fu hl hfu hne hb
    have he := envios_of_retry cfg env s _ _ _ hre rfl
    rw [he]
    by_cases hnet : ((fallosDe env.send fu).filter
        (fun e => e.is_network_error)).isEmpty = true
    · rw [if_pos hnet, if_pos hnet]
      rfl
    · rw [if_neg hnet, if_neg hnet]
      simp [save_failed_users, hw]
  · intro f hl hf hu
    have h1 := reintentos_none cfg env s Metrics.init hl
    have he := envios_dispatch cfg env s _ _ _ f h1 rfl hf hu hb
    rw [he]
    by_cases hnet : ((fallosDe env.send env.usuarios_activos).filter
        (fun e => e.is_network_error)).isEmpty = true
    · rw [if_pos hnet, if_pos hnet]
    · rw [if_neg hnet, if_neg hnet]
      simp [save_failed_users, hw]

/-- Claim C4 (witness): the reconcile theorem evaluated on a due record
whose retry succeeds (store cleared) and on a fresh run whose dispatch
fails transiently (store saved with the failure and the run's payload). -/
theorem c4_reconcile_witness :
    (procesar_envios defaultConfig ⟨some frEj, [u1, u2, u3], sendBien, 31, true⟩
        (.record ⟨frEj, [entryRed u1], 31⟩)).2 = .absent
    ∧ (procesar_envios defaultConfig ⟨some frEj, [u1], sendRed, 0, true⟩
        .absent).2 = .record ⟨frEj, [entryRed u1], 30⟩ := by
  constructor
  · have h := (c4_reconcile defaultConfig
      ⟨some frEj, [u1, u2, u3], sendBien, 31, true⟩
      (.record ⟨frEj, [entryRed u1], 31⟩) (by decide) rfl).1
      ⟨frEj, [entryRed u1], 31⟩ [u1] (by decide) (by decide) (by decide)
    rw [h]
    decide
  · have h := (c4_reconcile defaultConfig ⟨some frEj, [u1], sendRed, 0, true⟩
      .absent (by decide) rfl).2 frEj (by decide) rfl (by decide)
    rw [h]
    decide

/-- Claim C5: saving writes a record with retry_after = now + cooldown;
loading returns None when no record exists, None while now < retry_after
(hence None immediately after a save with positive cooldown), and exactly
the saved recipients and payload once retry_after has passed. -/
theorem c5_store (cfg : Config) (now t : Nat) (failed : List FailedEntry)
    (frase : FraseData) (s : StoreState) :
    save_failed_users cfg now true failed frase s
        = .record ⟨frase, failed, now + cfg.retry_delay_minutes⟩
    ∧ (0 < cfg.retry_delay_minutes →
        load_failed_users now (save_failed_users cfg now true failed frase s)
          = none)
    ∧ (t < now + cfg.retry_delay_minutes →
        load_failed_users t (save_failed_users cfg now true failed frase s)
          = none)
    ∧ (now + cfg.retry_delay_minutes ≤ t →
        load_failed_users t (save_failed_users cfg now true failed frase s)
          = some ⟨frase, failed, now + cfg.retry_delay_minutes⟩)
    ∧ load_failed_users t .absent = none := by
  refine ⟨rfl, ?_, ?_, ?_, rfl⟩
  · intro h
    show load_failed_users now
      (.record ⟨frase, failed, now + cfg.retry_delay_minutes⟩) = none
    rw [load_failed_users,
      if_neg (show ¬(now + cfg.retry_delay_minutes ≤ now) by omega)]
  · intro h
    show load_failed_users t
      (.record ⟨frase, failed, now + cfg.retry_delay_minutes⟩) = none
    rw [load_failed_users,
      if_neg (show ¬(now + cfg.retry_delay_minutes ≤ t) by omega)]
  · intro h
    show load_failed_users t
      (.record ⟨frase, failed, now + cfg.retry_delay_minutes⟩)
      = some ⟨frase, failed, now + cfg.retry_delay_minutes⟩
    rw [load_failed_users,
      if_pos (show now + cfg.retry_delay_minutes ≤ t by omega)]

/-- Claim C5 (witness): the store theorem evaluated at cooldown 30, save at
minute 0, loads at minutes 0, 10 and 30. -/
theorem c5_store_witness :
    load_failed_users 0
        (save_failed_users defaultConfig 0 true [entryRed u1] frEj .absent)
        = none
    ∧ load_failed_users 10
        (save_failed_users defaultConfig 0 true [entryRed u1] frEj .absent)
        = none
    ∧ load_failed_users 30
        (save_failed_users defaultConfig 0 true [entryRed u1] frEj .absent)
        = some ⟨frEj, [entryRed u1], 30⟩ := by
  have h10 := c5_store defaultConfig 0 10 [entryRed u1] frEj .absent
  have h30 := c5_store defaultConfig 0 30 [entryRed u1] frEj .absent
  exact ⟨h10.2.1 (by decide), h10.2.2.1 (by decide),
    h30.2.2.2.1 (by decide)⟩

/-- Claim C6: the classifier is a pure function of the message string that
reports a transient (network) failure exactly when the message contains one
of the seven fixed case-sensitive indicator substrings; in particular any
message containing "Connection refused" is transient, and
"Invalid email address" is permanent. -/
theorem c6_classifier (msg : String) :
    (is_network_error msg = true ↔
      (OccursIn "Network is unreachable" msg
        ∨ OccursIn "Connection refused" msg
        ∨ OccursIn "Connection timed out" msg
        ∨ OccursIn "Name or service not known" msg
        ∨ OccursIn "Temporary failure in name resolution" msg
        ∨ OccursIn "No route to host" msg
        ∨ OccursIn "Connection reset by peer" msg))
    ∧ (OccursIn "Connection refused" msg → is_network_error msg = true)
    ∧ is_network_error "Connection refused" = true
    ∧ is_network_error "Invalid email address" = false := by
  have hiff : is_network_error msg = true ↔
      (OccursIn "Network is unreachable" msg
        ∨ OccursIn "Connection refused" msg
        ∨ OccursIn "Connection timed out" msg
        ∨ OccursIn "Name or service not known" msg
        ∨ OccursIn "Temporary failure in name resolution" msg
        ∨ OccursIn "No route to host" msg
        ∨ OccursIn "Connection reset by peer" msg) := by
    simp [is_network_error, network_error_indicators, List.any_cons,
      List.any_nil, Bool.or_eq_true, containsSub_iff]
  exact ⟨hiff, fun h => hiff.mpr (Or.inr (Or.inl h)), by decide, by decide⟩

/-- Claim C6 (witness): a longer message containing "Connection refused" is
classified transient by applying the classifier theorem. -/
theorem c6_classifier_witness :
    is_network_error "smtplib error: Connection refused by server" = true :=
  (c6_classifier "smtplib error: Connection refused by server").2.1
    ⟨"smtplib error: ".data, " by server".data, by decide⟩

/-- Claim C7: finalize computes the mean of the recorded success durations
(0 when there were none), and on the spec instance — successes of 1.5 and
2.0 seconds plus one transient and one other failure — yields succeeded 2,
failed 2, one network error, and mean 1.75. -/
theorem c7_metrics :
    (∀ ds : List ℚ,
      ((applySucc ds Metrics.init).finalizar).tiempo_promedio_envio
        = if ds.isEmpty then 0 else ds.sum / (ds.length : ℚ))
    ∧ ((((Metrics.init.add_success 1.5).add_success 2.0).add_failure
          "e1" true).add_failure "e2" false).finalizar.exitosos = 2
    ∧ ((((Metrics.init.add_success 1.5).add_success 2.0).add_failure
          "e1" true).add_failure "e2" false).finalizar.fallidos = 2
    ∧ ((((Metrics.init.add_success 1.5).add_success 2.0).add_failure
          "e1" true).add_failure "e2" false).finalizar.errores_red = 1
    ∧ ((((Metrics.init.add_success 1.5).add_success 2.0).add_failure
          "e1" true).add_failure "e2" false).finalizar.otros_errores = 1
    ∧ ((((Metrics.init.add_success 1.5).add_success 2.0).add_failure
          "e1" true).add_failure
          "e2" false).finalizar.tiempo_promedio_envio = 1.75 := by
  refine ⟨?_, by decide, by decide, by decide, by decide, ?_⟩
  · intro ds
    have h := applySucc_tiempo ds Metrics.init
    simp only [Metrics.finalizar, h]
    simp [Metrics.init]
  · norm_num [Metrics.init, Metrics.add_success, Metrics.add_failure,
      Metrics.finalizar]

/-- Claim C9: the dispatcher splits the recipient list in order into
consecutive batches of the configured size (default 50) whose
concatenation is the original list, every batch but the last has exactly
that size and the last is nonempty and no larger, batches are folded
strictly sequentially, and each batch contributes exactly one outcome
decision per recipient.  The configured defaults are batch 50 and 5
workers for the pool bound. -/
theorem c9_batching (cfg : Config) (send : Usuario → SendR) (ir : Bool)
    (l : List Usuario) (m : Metrics) (hb : 0 < cfg.batch_size) :
    (chunks cfg.batch_size l).flatten = l
    ∧ (∀ c ∈ (chunks cfg.batch_size l).dropLast,
        c.length = cfg.batch_size)
    ∧ (∀ c ∈ chunks cfg.batch_size l, c ≠ [] ∧ c.length ≤ cfg.batch_size)
    ∧ dispatchLotes cfg send ir l m
        = (chunks cfg.batch_size l).foldl (dispatchStep send ir)
            (([], []), m)
    ∧ (∀ (lote : List Usuario) (m0 : Metrics),
        (procesar_lote send lote m0).1.1.length
          + (procesar_lote send lote m0).1.2.length
          + (lote.filter (fun u => (send u).isFailedR)).length
          = lote.length)
    ∧ defaultConfig.batch_size = 50
    ∧ defaultConfig.max_workers = 5 := by
  refine ⟨chunks_flatten cfg.batch_size hb l,
    chunks_dropLast_len cfg.batch_size hb l,
    chunks_mem_len cfg.batch_size hb l, rfl, ?_, rfl, rfl⟩
  intro lote m0
  rw [procesar_lote_eq]
  exact tripartite_len send lote

/-- Claim C9 (witness): the batching theorem evaluated at batch size 2 over
three recipients. -/
theorem c9_batching_witness :
    (chunks 2 [u1, u2, u3]).flatten = [u1, u2, u3]
    ∧ defaultConfig.batch_size = 50
    ∧ defaultConfig.max_workers = 5 := by
  have h := c9_batching ⟨3, 2, 5, 30⟩ sendBien false [u1, u2, u3]
    Metrics.init (by decide)
  exact ⟨h.1, h.2.2.2.2.2.1, h.2.2.2.2.2.2⟩

lemma reintentos_writeOk_indep (cfg : Config) (fr : Option FraseData)
    (us : List Usuario) (send : Usuario → SendR) (now : Nat)
    (s : StoreState) (m : Metrics) (w1 w2 : Bool) :
    (procesar_reintentos_diferidos cfg ⟨fr, us, send, now, w1⟩ s m).1
        = (procesar_reintentos_diferidos cfg ⟨fr, us, send, now, w2⟩ s m).1
    ∧ (procesar_reintentos_diferidos cfg ⟨fr, us, send, now, w1⟩ s m).2.2
        = (procesar_reintentos_diferidos cfg ⟨fr, us, send, now, w2⟩ s m).2.2 := by
  cases hl : load_failed_users now s with
  | none =>
    rw [reintentos_none cfg ⟨fr, us, send, now, w1⟩ s m hl,
        reintentos_none cfg ⟨fr, us, send, now, w2⟩ s m hl]
    exact ⟨rfl, rfl⟩
  | some rec =>
    cases hne : ((rec.failed_users.filter (fun it => it.is_network_error)).map
        (fun it => it.usuario)).isEmpty with
    | true =>
      rw [reintentos_empty cfg ⟨fr, us, send, now, w1⟩ s m rec hl hne,
          reintentos_empty cfg ⟨fr, us, send, now, w2⟩ s m rec hl hne]
      exact ⟨rfl, rfl⟩
    | false =>
      rcases hd : dispatchLotes cfg send true
          ((rec.failed_users.filter (fun it => it.is_network_error)).map
            (fun it => it.usuario))
          (m.set_total_usuarios
            ((rec.failed_users.filter (fun it => it.is_network_error)).map
              (fun it => it.usuario)).length) with ⟨⟨ex, fa⟩, m2⟩
      rw [reintentos_dispatch_raw cfg ⟨fr, us, send, now, w1⟩ s m rec _ ex fa
            m2 hl rfl hne hd,
          reintentos_dispatch_raw cfg ⟨fr, us, send, now, w2⟩ s m rec _ ex fa
            m2 hl rfl hne hd]
      exact ⟨rfl, rfl⟩

lemma envios_writeOk_indep (cfg : Config) (fr : Option FraseData)
    (us : List Usuario) (send : Usuario → SendR) (now : Nat)
    (s : StoreState) (w1 w2 : Bool) :
    (procesar_envios cfg ⟨fr, us, send, now, w1⟩ s).1
        = (procesar_envios cfg ⟨fr, us, send, now, w2⟩ s).1 := by
  rcases h1 : procesar_reintentos_diferidos cfg ⟨fr, us, send, now, w1⟩ s
    Metrics.init with ⟨r1, s1, m1⟩
  rcases h2 : procesar_reintentos_diferidos cfg ⟨fr, us, send, now, w2⟩ s
    Metrics.init with ⟨r2, s2, m2⟩
  have hind := reintentos_writeOk_indep cfg fr us send now s Metrics.init w1 w2
  rw [h1, h2] at hind
  have hr12 : r1 = r2 := hind.1
  have hm12 : m1 = m2 := hind.2
  by_cases hs : r1.success = true
  · rw [envios_of_retry cfg ⟨fr, us, send, now, w1⟩ s r1 s1 m1 h1 hs,
        envios_of_retry cfg ⟨fr, us, send, now, w2⟩ s r2 s2 m2 h2
          (by rw [← hr12]; exact hs)]
    exact hr12
  · have hs1 : r1.success = false := by
      cases hv : r1.success
      · rfl
      · exact absurd hv hs
    have hs2 : r2.success = false := by rw [← hr12]; exact hs1
    cases fr with
    | none =>
      rw [envios_no_frase cfg ⟨none, us, send, now, w1⟩ s r1 s1 m1 h1 hs1 rfl,
          envios_no_frase cfg ⟨none, us, send, now, w2⟩ s r2 s2 m2 h2 hs2 rfl]
    | some f =>
      cases hu : us.isEmpty with
      | true =>
        rw [envios_no_usuarios cfg ⟨some f, us, send, now, w1⟩ s r1 s1 m1 f
              h1 hs1 rfl hu,
            envios_no_usuarios cfg ⟨some f, us, send, now, w2⟩ s r2 s2 m2 f
              h2 hs2 rfl hu]
      | false =>
        rcases hd : dispatchLotes cfg send false us
            (m1.set_total_usuarios us.length) with ⟨⟨ex, fa⟩, m3⟩
        have hd2 : dispatchLotes cfg send false us
            (m2.set_total_usuarios us.length) = ((ex, fa), m3) := by
          rw [← hm12]
          exact hd
        rw [envios_dispatch_raw cfg ⟨some f, us, send, now, w1⟩ s r1 s1 m1 f
              ex fa m3 h1 hs1 rfl hu hd,
            envios_dispatch_raw cfg ⟨some f, us, send, now, w2⟩ s r2 s2 m2 f
              ex fa m3 h2 hs2 rfl hu hd2]

/-- Claim C8: no retry-store operation raises: clear on an absent record is
a no-op and loading afterwards gives None (clear is idempotent); loading an
unreadable or corrupt record file gives None instead of raising; a failed
write during save leaves the store unchanged; and the run result is
entirely independent of whether the save write succeeds — the run
proceeds. -/
theorem c8_store_resilience :
    clear_failed_users .absent = .absent
    ∧ (∀ (s : StoreState) (t : Nat),
        load_failed_users t (clear_failed_users s) = none)
    ∧ (∀ t : Nat, load_failed_users t .corrupt = none)
    ∧ (∀ (cfg : Config) (now : Nat) (failed : List FailedEntry)
        (frase : FraseData) (s : StoreState),
        save_failed_users cfg now false failed frase s = s)
    ∧ (∀ (cfg : Config) (fr : Option FraseData) (us : List Usuario)
        (send : Usuario → SendR) (now : Nat) (s : StoreState) (w1 w2 : Bool),
        (procesar_envios cfg ⟨fr, us, send, now, w1⟩ s).1
          = (procesar_envios cfg ⟨fr, us, send, now, w2⟩ s).1) := by
  refine ⟨rfl, fun s t => rfl, fun t => rfl, fun cfg now failed frase s => rfl,
    envios_writeOk_indep⟩

/-- Claim C10: when the transport wrapper reports failure by returning
False (as `EmailService.enviar_correo` does, catching every exception and
returning False after its attempts), `procesar_usuario` returns None and
leaves the metrics untouched; such a recipient appears in neither outcome
list of the dispatch, the failure counter counts only raised failures, and
every failure entry (hence anything the reconcile step can write to the
retry store) belongs to a recipient whose transport raised — never to one
whose transport returned False. -/
theorem c10_silent_failure (cfg : Config) (send : Usuario → SendR)
    (ir : Bool) (l : List Usuario) (u : Usuario) (m m0 : Metrics)
    (hb : 0 < cfg.batch_size) (hu : send u = .failed) :
    procesar_usuario u .failed m = (none, m)
    ∧ u ∉ (dispatchLotes cfg send ir l m0).1.1
    ∧ u ∉ (dispatchLotes cfg send ir l m0).1.2.map FailedEntry.usuario
    ∧ (dispatchLotes cfg send ir l m0).2.fallidos
        = m0.fallidos + (l.filter (fun v => (send v).isRaised)).length
    ∧ (∀ e ∈ (dispatchLotes cfg send ir l m0).1.2,
        (send e.usuario).isRaised = true ∧ ¬(e.usuario = u)) := by
  have hD := dispatchLotes_eq cfg send ir l m0 hb
  refine ⟨rfl, ?_, ?_, ?_, ?_⟩
  · rw [hD]
    intro hmem
    have hok := (List.mem_filter.mp
      (show u ∈ l.filter (fun v => (send v).isOk) from hmem)).2
    rw [hu] at hok
    simp [SendR.isOk] at hok
  · rw [hD]
    intro hmem
    have h2 : u ∈ l.filter (fun v => (send v).isRaised) := by
      rw [← fallosDe_map_usuario]
      exact hmem
    have hraised := (List.mem_filter.mp h2).2
    rw [hu] at hraised
    simp [SendR.isRaised] at hraised
  · have hf := (dispatchMetrics_fields send ir (chunks cfg.batch_size l)
      m0).2.1
    rw [chunks_flatten cfg.batch_size hb l] at hf
    rw [hD]
    rw [show (l.filter (fun v => (send v).isRaised)).length
          = (fallosDe send l).length by
        rw [← fallosDe_map_usuario send l, List.length_map]]
    exact hf
  · rw [hD]
    intro e he
    obtain ⟨hmem, msg, hraised, hform⟩ := fallosDe_mem send l e he
    constructor
    · rw [hraised]
      rfl
    · intro hequ
      rw [hequ, hu] at hraised
      exact SendR.noConfusion hraised

/-- Claim C10 (witness): the silent-failure theorem evaluated on a mixed
transport where the third recipient's transport returns False. -/
theorem c10_silent_failure_witness :
    procesar_usuario u3 .failed Metrics.init = (none, Metrics.init)
    ∧ u3 ∉ (dispatchLotes defaultConfig sendMix false [u1, u2, u3]
        Metrics.init).1.1
    ∧ u3 ∉ (dispatchLotes defaultConfig sendMix false [u1, u2, u3]
        Metrics.init).1.2.map FailedEntry.usuario := by
  have h := c10_silent_failure defaultConfig sendMix false [u1, u2, u3] u3
    Metrics.init Metrics.init (by decide) (by decide)
  exact ⟨h.1, h.2.1, h.2.2.1⟩
